import Mathlib

/-!
Verification of the voiceover generation subsystem of the VideoGraph
repository (src/backend/modal/services/tts/elevenlabs.py).

The Python source is shallowly embedded below:
* `_extract_word_timings` (character-to-word timing reconstruction) as a pure
  recursive function over lists; list indexing that can raise `IndexError`
  in Python is modelled in the `Option` monad.
* `_get_cache_key` with a full executable model of `json.dumps(-, sort_keys=True)`
  (canonical serialization with ASCII escaping) and of SHA-256 over bytes.
* `_calculate_cost` over `ℚ` (the exact values of the decimal literals used).
* `generate_voiceover` as a state-passing function over an explicit
  environment (env vars, network oracle indexed by attempt) and an explicit
  file-system map, recording the list of file writes and the number of
  synthesis attempts.
-/

namespace VideoGraph

/-! ## Word timing records

Mirrors the `current_word` / word dictionaries built by
`_extract_word_timings`: keys `text`, `start`, `end`, `char_start_index`,
`char_end_index`.  Times are modelled as rationals (the float values used in
the specification's test vectors are all exactly representable). -/

structure WordTiming where
  text : String
  start : ℚ
  end_ : ℚ
  char_start_index : Nat
  char_end_index : Nat
deriving DecidableEq, Repr

/-- Python's whitespace set for `str.strip()` / `str.isspace()`
(Unicode whitespace, by code point). -/
def pyIsSpace (c : Char) : Bool :=
  c.toNat ∈ [9, 10, 11, 12, 13, 28, 29, 30, 31, 32, 0x85, 0xA0, 0x1680,
    0x2000, 0x2001, 0x2002, 0x2003, 0x2004, 0x2005, 0x2006, 0x2007, 0x2008,
    0x2009, 0x200A, 0x2028, 0x2029, 0x202F, 0x205F, 0x3000]

/-- Python `str.strip()` with no argument: remove leading and trailing
whitespace. -/
def pyStrip (s : String) : String :=
  String.mk (((s.data.dropWhile pyIsSpace).reverse.dropWhile pyIsSpace).reverse)

/-- The word-break test `char in [' ', '\n', '\t']` from
`_extract_word_timings`. -/
def isBreakChar (c : Char) : Bool :=
  c = ' ' || c = '\n' || c = '\t'

/-- Length of the leading run of break characters: the loop
`while next_char_idx < len(characters) and characters[next_char_idx] in [' ', '\n', '\t']`
advances `next_char_idx` from `i + 1` by exactly the length of the leading
break-character run of the remaining list. -/
def skipWsCount : List Char → Nat
  | [] => 0
  | c :: r => if isBreakChar c then skipWsCount r + 1 else 0

/-- The `for i, char in enumerate(characters)` loop of
`_extract_word_timings`, processed one character at a time.  The first list
argument is the full `characters` list (used for the length test on
`next_char_idx`), the fourth argument is the still-unprocessed suffix
`characters.drop i`.  List accesses that Python performs unguarded
(`end_times[i-1]`, `start_times[i]`) are made in the `Option` monad so that
an out-of-range access is observable as `none`; accesses that Python guards
(`start_times[next_char_idx] if next_char_idx < len(start_times) else 0`,
`end_times[-1] if end_times else 0`) are translated to `getD`/`getLastD`. -/
def extractLoop (characters : List Char) (start_times end_times : List ℚ) :
    List Char → Nat → WordTiming → List WordTiming → Option (List WordTiming)
  | [], _i, current_word, words =>
      -- "Add the last word if it has content"
      if pyStrip current_word.text ≠ "" then
        some (words ++ [{ current_word with end_ := end_times.getLastD 0 }])
      else
        some words
  | char :: rest, i, current_word, words =>
      if isBreakChar char then
        -- "End current word if it has content"
        match
          (if pyStrip current_word.text ≠ "" then
            match (if i > 0 then end_times[i-1]? else start_times[i]?) with
            | none => none
            | some e =>
              let closed := { current_word with end_ := e, char_end_index := i - 1 }
              some (closed, words ++ [closed])
          else
            some (current_word, words)) with
        | none => none
        | some (cw1, words1) =>
          -- "Start new word (skip whitespace)"
          let next_char_idx := i + 1 + skipWsCount rest
          let cw2 :=
            if next_char_idx < characters.length then
              { text := "", start := start_times.getD next_char_idx 0, end_ := 0,
                char_start_index := next_char_idx, char_end_index := next_char_idx }
            else
              cw1
          extractLoop characters start_times end_times rest (i + 1) cw2 words1
      else
        extractLoop characters start_times end_times rest (i + 1)
          { current_word with text := current_word.text.push char, char_end_index := i }
          words

/-- Model of `_extract_word_timings(characters, start_times, end_times)`:
convert character-level timing to word-level timing.  Returns `none` exactly
when the Python function would raise an `IndexError`. -/
def _extract_word_timings (characters : List Char)
    (start_times end_times : List ℚ) : Option (List WordTiming) :=
  if characters = [] ∨ start_times = [] ∨ end_times = [] then
    some []
  else
    extractLoop characters start_times end_times characters 0
      { text := "", start := start_times.headD 0, end_ := 0,
        char_start_index := 0, char_end_index := 0 } []

/-! ## Canonical serialization: `json.dumps(data, sort_keys=True)`

`_get_cache_key` serializes `{"text": text, "voice_id": voice_id,
"service": "elevenlabs_timed"}` with `json.dumps(..., sort_keys=True)`.
With sorted keys and the default separators and `ensure_ascii=True` this is
the string

    {"service": "elevenlabs_timed", "text": "<esc text>", "voice_id": "<esc voice>"}

where `<esc s>` is the JSON ASCII escaping of `s`. -/

/-- Lower-case hexadecimal digit. -/
def hexDigitChar (n : Nat) : Char :=
  if n < 10 then Char.ofNat (48 + n) else Char.ofNat (87 + n)

/-- Four-digit lower-case hexadecimal rendering, as in `\uXXXX` escapes. -/
def toHex4 (n : Nat) : List Char :=
  [hexDigitChar (n / 4096 % 16), hexDigitChar (n / 256 % 16),
   hexDigitChar (n / 16 % 16), hexDigitChar (n % 16)]

/-- The escaping of one character performed by `json.dumps` with
`ensure_ascii=True` (the default): the two-character escapes for quote,
backslash and the common control characters, `\uXXXX` for the remaining
control characters and all non-ASCII characters, and a surrogate pair for
characters beyond the basic multilingual plane. -/
def escapeChar (c : Char) : List Char :=
  if c = '"' then ['\\', '"']
  else if c = '\\' then ['\\', '\\']
  else if c = '\n' then ['\\', 'n']
  else if c = '\r' then ['\\', 'r']
  else if c = '\t' then ['\\', 't']
  else if c.toNat = 8 then ['\\', 'b']
  else if c.toNat = 12 then ['\\', 'f']
  else if c.toNat < 32 then '\\' :: 'u' :: toHex4 c.toNat
  else if c.toNat < 127 then [c]
  else if c.toNat < 65536 then '\\' :: 'u' :: toHex4 c.toNat
  else
    ('\\' :: 'u' :: toHex4 (55296 + (c.toNat - 65536) / 1024)) ++
    ('\\' :: 'u' :: toHex4 (56320 + (c.toNat - 65536) % 1024))

/-- Character-wise JSON escaping of a string body. -/
def escapeChars : List Char → List Char
  | [] => []
  | c :: r => escapeChar c ++ escapeChars r

/-- The exact string produced by
`json.dumps({"text": text, "voice_id": voice_id, "service": "elevenlabs_timed"}, sort_keys=True)`. -/
def cacheKeyPayload (text voice_id : String) : List Char :=
  "\x7b\"service\": \"elevenlabs_timed\", \"text\": \"".data ++
    escapeChars text.data ++ "\", \"voice_id\": \"".data ++
    escapeChars voice_id.data ++ "\"\x7d".data

/-- Model of `str.encode('utf-8')` for one character. -/
def utf8EncodeChar (c : Char) : List Nat :=
  let n := c.toNat
  if n < 128 then [n]
  else if n < 2048 then [192 + n / 64, 128 + n % 64]
  else if n < 65536 then [224 + n / 4096, 128 + n / 64 % 64, 128 + n % 64]
  else [240 + n / 262144, 128 + n / 4096 % 64, 128 + n / 64 % 64, 128 + n % 64]

/-- Model of `str.encode('utf-8')`. -/
def utf8Encode : List Char → List Nat
  | [] => []
  | c :: r => utf8EncodeChar c ++ utf8Encode r

/-! ## SHA-256 (`hashlib.sha256(...).hexdigest()`)

A full executable model of SHA-256 over byte lists, with 32-bit words
modelled as `Nat` reduced modulo `2^32` at every assignment. -/

/-- The constant `2^32`. -/
def W32 : Nat := 4294967296

/-- The eight 32-bit words of a SHA-256 hash state (also used for the
working variables a–h during compression). -/
structure Sha8 where
  h0 : Nat
  h1 : Nat
  h2 : Nat
  h3 : Nat
  h4 : Nat
  h5 : Nat
  h6 : Nat
  h7 : Nat
deriving DecidableEq, Repr

/-- SHA-256 initial hash value. -/
def sha256Init : Sha8 :=
  ⟨1779033703, 3144134277, 1013904242, 2773480762,
   1359893119, 2600822924, 528734635, 1541459225⟩

/-- SHA-256 round constants (the 32 high fractional bits of the cube roots
of the first 64 primes), written in decimal. -/
def sha256K : List Nat :=
  [1116352408, 1899447441, 3049323471, 3921009573, 961987163,
   1508970993, 2453635748, 2870763221, 3624381080, 310598401,
   607225278, 1426881987, 1925078388, 2162078206, 2614888103,
   3248222580, 3835390401, 4022224774, 264347078, 604807628,
   770255983, 1249150122, 1555081692, 1996064986, 2554220882,
   2821834349, 2952996808, 3210313671, 3336571891, 3584528711,
   113926993, 338241895, 666307205, 773529912, 1294757372,
   1396182291, 1695183700, 1986661051, 2177026350, 2456956037,
   2730485921, 2820302411, 3259730800, 3345764771, 3516065817,
   3600352804, 4094571909, 275423344, 430227734, 506948616,
   659060556, 883997877, 958139571, 1322822218, 1537002063,
   1747873779, 1955562222, 2024104815, 2227730452, 2361852424,
   2428436474, 2756734187, 3204031479, 3329325298]

/-- Right rotation of a 32-bit word (inputs are kept below `2^32`). -/
def rotr32 (x n : Nat) : Nat := (x >>> n) ||| ((x <<< (32 - n)) % W32)

/-- Message-schedule extension: prepend the next word to the reversed
schedule, `n` times. -/
def scheduleExtend : Nat → List Nat → List Nat
  | 0, rev => rev
  | n + 1, rev =>
    let w2 := rev.getD 1 0
    let w7 := rev.getD 6 0
    let w15 := rev.getD 14 0
    let w16 := rev.getD 15 0
    let s0 := (rotr32 w15 7) ^^^ (rotr32 w15 18) ^^^ (w15 >>> 3)
    let s1 := (rotr32 w2 17) ^^^ (rotr32 w2 19) ^^^ (w2 >>> 10)
    scheduleExtend n (((w16 + s0 + w7 + s1) % W32) :: rev)

/-- The 64-word message schedule of one 16-word block. -/
def sha256Schedule (block : List Nat) : List Nat :=
  (scheduleExtend 48 block.reverse).reverse

/-- One SHA-256 compression round on working variables a–h, for a round
constant paired with a schedule word. -/
def sha256Round (s : Sha8) (kw : Nat × Nat) : Sha8 :=
  let S1 := (rotr32 s.h4 6) ^^^ (rotr32 s.h4 11) ^^^ (rotr32 s.h4 25)
  let ch := (s.h4 &&& s.h5) ^^^ ((s.h4 ^^^ 0xffffffff) &&& s.h6)
  let t1 := (s.h7 + S1 + ch + kw.1 + kw.2) % W32
  let S0 := (rotr32 s.h0 2) ^^^ (rotr32 s.h0 13) ^^^ (rotr32 s.h0 22)
  let maj := (s.h0 &&& s.h1) ^^^ (s.h0 &&& s.h2) ^^^ (s.h1 &&& s.h2)
  let t2 := (S0 + maj) % W32
  ⟨(t1 + t2) % W32, s.h0, s.h1, s.h2, (s.h3 + t1) % W32, s.h4, s.h5, s.h6⟩

/-- Compress one 16-word block into the hash state. -/
def sha256Compress (H : Sha8) (block : List Nat) : Sha8 :=
  let w := (sha256K.zip (sha256Schedule block)).foldl sha256Round H
  ⟨(H.h0 + w.h0) % W32, (H.h1 + w.h1) % W32, (H.h2 + w.h2) % W32,
   (H.h3 + w.h3) % W32, (H.h4 + w.h4) % W32, (H.h5 + w.h5) % W32,
   (H.h6 + w.h6) % W32, (H.h7 + w.h7) % W32⟩

/-- Big-endian grouping of bytes into 32-bit words (the padded message
length is a multiple of four). -/
def bytesToWords : List Nat → List Nat
  | b0 :: b1 :: b2 :: b3 :: r =>
      (((b0 * 256 + b1) * 256 + b2) * 256 + b3) :: bytesToWords r
  | _ => []

/-- Grouping of words into 16-word blocks (the padded message is a multiple
of 16 words). -/
def wordsToBlocks : List Nat → List (List Nat)
  | w0 :: w1 :: w2 :: w3 :: w4 :: w5 :: w6 :: w7 :: w8 :: w9 :: w10 :: w11 ::
      w12 :: w13 :: w14 :: w15 :: r =>
      [w0, w1, w2, w3, w4, w5, w6, w7, w8, w9, w10, w11, w12, w13, w14, w15] ::
        wordsToBlocks r
  | _ => []

/-- The 8-byte big-endian encoding of the message bit length. -/
def lengthBytes (bits : Nat) : List Nat :=
  [bits / 72057594037927936 % 256, bits / 281474976710656 % 256,
   bits / 1099511627776 % 256, bits / 4294967296 % 256,
   bits / 16777216 % 256, bits / 65536 % 256, bits / 256 % 256, bits % 256]

/-- SHA-256 padding: a `0x80` byte, zeros up to 56 mod 64, then the bit
length. -/
def padMessage (m : List Nat) : List Nat :=
  let L := m.length
  m ++ [128] ++ List.replicate ((119 - L % 64) % 64) 0 ++ lengthBytes (L * 8)

/-- The final SHA-256 hash state of a byte message. -/
def sha256State (m : List Nat) : Sha8 :=
  (wordsToBlocks (bytesToWords (padMessage m))).foldl sha256Compress sha256Init

/-- Eight-digit lower-case hexadecimal rendering of one 32-bit word. -/
def toHex8 (w : Nat) : List Char :=
  [hexDigitChar (w / 268435456 % 16), hexDigitChar (w / 16777216 % 16),
   hexDigitChar (w / 1048576 % 16), hexDigitChar (w / 65536 % 16),
   hexDigitChar (w / 4096 % 16), hexDigitChar (w / 256 % 16),
   hexDigitChar (w / 16 % 16), hexDigitChar (w % 16)]

/-- Model of `hashlib.sha256(m).hexdigest()`. -/
def sha256Hexdigest (m : List Nat) : String :=
  let H := sha256State m
  String.mk (toHex8 H.h0 ++ toHex8 H.h1 ++ toHex8 H.h2 ++ toHex8 H.h3 ++
             toHex8 H.h4 ++ toHex8 H.h5 ++ toHex8 H.h6 ++ toHex8 H.h7)

/-- Model of `_get_cache_key(text, voice_id)`: SHA-256 hex digest of the canonical
JSON serialization of `{text, voice_id, service}`. -/
def _get_cache_key (text voice_id : String) : String :=
  sha256Hexdigest (utf8Encode (cacheKeyPayload text voice_id))

/-- Model of `_calculate_cost(text)`: `len(text) * 0.0003` USD. -/
def _calculate_cost (text : String) : ℚ :=
  text.length * 0.0003

/-- The final hash state packed into a tuple of 32-bit values; used to count
the possible digests (at most `2^256`). -/
def sha256Fin (m : List Nat) :
    Fin W32 × Fin W32 × Fin W32 × Fin W32 × Fin W32 × Fin W32 × Fin W32 × Fin W32 :=
  let H := sha256State m
  (⟨H.h0 % W32, Nat.mod_lt _ (by decide)⟩, ⟨H.h1 % W32, Nat.mod_lt _ (by decide)⟩,
   ⟨H.h2 % W32, Nat.mod_lt _ (by decide)⟩, ⟨H.h3 % W32, Nat.mod_lt _ (by decide)⟩,
   ⟨H.h4 % W32, Nat.mod_lt _ (by decide)⟩, ⟨H.h5 % W32, Nat.mod_lt _ (by decide)⟩,
   ⟨H.h6 % W32, Nat.mod_lt _ (by decide)⟩, ⟨H.h7 % W32, Nat.mod_lt _ (by decide)⟩)

/-- An injective family of `2^257` distinct texts over the letters a and b. -/
def bitsToString (b : Fin 257 → Bool) : String :=
  String.mk (List.ofFn fun i => if b i then 'b' else 'a')

/-! ## A JSON string-body parser, used as a left inverse of `escapeChars`

Not part of the Python source: this parser witnesses that the serialization
`cacheKeyPayload` is injective (`parseJString` undoes `escapeChars`). -/

/-- Value of one hexadecimal digit character. -/
def hexVal? (c : Char) : Option Nat :=
  if 48 ≤ c.toNat ∧ c.toNat ≤ 57 then some (c.toNat - 48)
  else if 97 ≤ c.toNat ∧ c.toNat ≤ 102 then some (c.toNat - 87)
  else none

/-- Value of a four-digit hexadecimal escape body. -/
def hex4? (a b c d : Char) : Option Nat :=
  match hexVal? a, hexVal? b, hexVal? c, hexVal? d with
  | some x, some y, some z, some w => some (((x * 16 + y) * 16 + z) * 16 + w)
  | _, _, _, _ => none

/-- One step of parsing a JSON string body: consume one escape unit (or the
closing quote), delegating the remaining input to `next`.  Decodes exactly
the escapes produced by `escapeChar`. -/
def parseStep (next : List Char → Option (List Char × List Char)) :
    List Char → Option (List Char × List Char) := fun l =>
  match l with
  | [] => none
  | c :: r =>
    if c = '"' then some ([], r)
    else if c = '\\' then
      match r with
      | [] => none
      | e :: r1 =>
        if e = 'u' then
          match r1 with
          | a :: b :: c2 :: d :: r2 =>
            match hex4? a b c2 d with
            | none => none
            | some n =>
              if 55296 ≤ n /\ n ≤ 56319 then
                match r2 with
                | e1 :: e2 :: a2 :: b2 :: c3 :: d2 :: r3 =>
                  if e1 = '\\' /\ e2 = 'u' then
                    match hex4? a2 b2 c3 d2 with
                    | none => none
                    | some m =>
                      if 56320 ≤ m /\ m ≤ 57343 then
                        match next r3 with
                        | none => none
                        | some (s, rest) =>
                          some (Char.ofNat
                            (65536 + (n - 55296) * 1024 + (m - 56320)) :: s, rest)
                      else none
                  else none
                | _ => none
              else
                match next r2 with
                | none => none
                | some (s, rest) => some (Char.ofNat n :: s, rest)
          | _ => none
        else
          match (if e = '"' then some '"'
                 else if e = '\\' then some '\\'
                 else if e = 'n' then some '\n'
                 else if e = 'r' then some '\r'
                 else if e = 't' then some '\t'
                 else if e = 'b' then some (Char.ofNat 8)
                 else if e = 'f' then some (Char.ofNat 12)
                 else none) with
          | none => none
          | some ch =>
            match next r1 with
            | none => none
            | some (s, rest) => some (ch :: s, rest)
    else
      match next r with
      | none => none
      | some (s, rest) => some (c :: s, rest)

/-- Fuel-indexed iteration of `parseStep` (every step consumes at least one
character, so `l.length` fuel always suffices). -/
def parseJStringF : Nat → List Char → Option (List Char × List Char)
  | 0, _ => none
  | fuel + 1, l => parseStep (parseJStringF fuel) l

/-- Parse a JSON string body up to (and consuming) its closing quote,
decoding the escapes produced by `escapeChar`; returns the decoded
characters and the remaining input. -/
def parseJString (l : List Char) : Option (List Char × List Char) :=
  parseJStringF l.length l

/-! ## The environment and effect model for `generate_voiceover`

The function's interactions with the outside world are:
* `os.getenv` on four credential variable names;
* `requests.post` + `response.json()` once per attempt (modelled by an
  oracle from the attempt number to an outcome);
* `base64.b64decode` of the `audio_base64` field (modelled by the field
  being absent, undecodable, or carrying the decoded bytes);
* file-system reads/writes (modelled by an association list from path
  strings to file contents, plus a log of the paths written). -/

/-- The character alignment object of the API response
(`result['alignment']`), with its three parallel arrays. -/
structure Alignment where
  characters : List Char
  character_start_times_seconds : List ℚ
  character_end_times_seconds : List ℚ
deriving DecidableEq, Repr

/-- The timing JSON written next to the audio file. -/
structure TimingData where
  text : String
  word_timings : List WordTiming
  character_alignment : Alignment
deriving DecidableEq, Repr

/-- Contents of a file: decoded audio bytes, a parseable timing JSON, or
contents on which `json.loads` fails. -/
inductive FileContent where
  | audio (bytes : List Nat)
  | timing (td : TimingData)
  | corrupt (raw : String)
deriving DecidableEq

/-- The file system: newest-first association list from paths to contents. -/
abbrev FS := List (String × FileContent)

/-- The `audio_base64` field of a response: absent (`KeyError`),
present but not valid base64 (`binascii.Error`), or decodable. -/
inductive B64Audio where
  | missing
  | invalid (raw : String)
  | decodable (bytes : List Nat)
deriving DecidableEq

/-- A successfully parsed HTTP 2xx response body. -/
structure ApiResponse where
  audio_base64 : B64Audio
  alignment : Option Alignment
deriving DecidableEq

/-- Outcome of one `requests.post` attempt: a network/timeout/HTTP-status
error (raised by `post`/`raise_for_status`), or a parsed JSON body. -/
inductive NetOutcome where
  | transportError (msg : String)
  | httpOk (body : ApiResponse)
deriving DecidableEq

/-- The ambient environment: `os.getenv` and the network oracle, indexed by
the attempt number. -/
structure Env where
  getenv : String → Option String
  net : Nat → NetOutcome

/-- The Python exceptions that the retry loop can catch. -/
inductive PyErr where
  | transport (msg : String)
  | keyError
  | b64Error
  | indexError
deriving DecidableEq, Repr

/-- How `generate_voiceover` fails: the `ValueError` for a missing API key,
or the final `Exception` carrying the attempt count and the last caught
error. -/
inductive GenError where
  | configError
  | failedAfter (retries : Nat) (last_error : Option PyErr)
deriving DecidableEq, Repr

/-- The dictionary returned by `generate_voiceover`. -/
structure VoiceoverResult where
  audio_path : String
  word_timings : List WordTiming
  character_alignment : Alignment
  cost : ℚ
  character_count : Nat
  from_cache : Bool
deriving DecidableEq, Repr

/-- Effect state threaded through a run: the file system, the ordered log of
paths written, and the number of synthesis attempts started. -/
structure GenState where
  fs : FS
  writes : List String
  attempts : Nat
deriving DecidableEq

/-- Path lookup (newest entry wins). -/
def fsLookup (fs : FS) (p : String) : Option FileContent :=
  match fs with
  | [] => none
  | (q, c) :: r => if q = p then some c else fsLookup r p

/-- Write a file: record the new contents and log the path. -/
def writeFile (st : GenState) (p : String) (c : FileContent) : GenState :=
  { st with fs := (p, c) :: st.fs, writes := st.writes ++ [p] }

/-- Python truthiness of `os.getenv`'s result (None and "" are falsy). -/
def pyTruthy (o : Option String) : Bool := o.getD "" ≠ ""

/-- Python's `or` on optional strings. -/
def pyOrStr (a b : Option String) : Option String := if pyTruthy a then a else b

/-- Split a character list at every occurrence of a separator. -/
def splitOnChar (sep : Char) : List Char → List (List Char)
  | [] => [[]]
  | c :: r =>
    match splitOnChar sep r with
    | [] => [[]]
    | g :: gs => if c = sep then [] :: g :: gs else (c :: g) :: gs

/-- Join character-list groups with a separator. -/
def intercalateChar (sep : Char) : List (List Char) → List Char
  | [] => []
  | [g] => g
  | g :: gs => g ++ sep :: intercalateChar sep gs

/-- Model of `pathlib.Path(p).parent` for the path shapes used here (a final
component after a `/` separator, or a bare name whose parent is `.`). -/
def pathParent (p : String) : String :=
  let parts := splitOnChar '/' p.data
  if parts.length ≤ 1 then "." else String.mk (intercalateChar '/' parts.dropLast)

/-- Model of `pathlib.Path(p).with_suffix(suffix)`: replace the final extension of
the last path component. -/
def withSuffix (p : String) (suffix : String) : String :=
  let parts := splitOnChar '/' p.data
  let name := parts.getLastD []
  let nameParts := splitOnChar '.' name
  let stem := if nameParts.length ≤ 1 then name
              else intercalateChar '.' nameParts.dropLast
  String.mk (intercalateChar '/' (parts.dropLast ++ [stem ++ suffix.data]))

/-- The `for attempt in range(retries)` retry loop of `generate_voiceover`,
in fuel-passing form: the first `Nat` is `retries - attempt` (remaining
iterations), the second is `attempt`.  Any exception inside an attempt —
transport error, missing `audio_base64` key, base64 decode error, or an
`IndexError` inside `_extract_word_timings` — is caught, stored as
`last_error`, and followed by the next attempt; after the last attempt the
final `Exception` wraps `retries` and `last_error`. -/
def attemptLoop (env : Env) (text output_path cached_audio cached_timing : String)
    (retries : Nat) :
    Nat → Nat → Option PyErr → GenState →
      Except GenError VoiceoverResult × GenState
  | 0, _attempt, last_error, st => (.error (.failedAfter retries last_error), st)
  | remaining + 1, attempt, last_error, st =>
    let st1 := { st with attempts := st.attempts + 1 }
    match env.net attempt with
    | .transportError m =>
        attemptLoop env text output_path cached_audio cached_timing retries
          remaining (attempt + 1) (some (.transport m)) st1
    | .httpOk body =>
      match body.audio_base64 with
      | .missing =>
          attemptLoop env text output_path cached_audio cached_timing retries
            remaining (attempt + 1) (some .keyError) st1
      | .invalid _ =>
          attemptLoop env text output_path cached_audio cached_timing retries
            remaining (attempt + 1) (some .b64Error) st1
      | .decodable audio_bytes =>
        -- audio is decoded and written before timing extraction
        let st2 := writeFile st1 output_path (.audio audio_bytes)
        let alignment := body.alignment.getD ⟨[], [], []⟩
        match _extract_word_timings alignment.characters
            alignment.character_start_times_seconds
            alignment.character_end_times_seconds with
        | none =>
            attemptLoop env text output_path cached_audio cached_timing retries
              remaining (attempt + 1) (some .indexError) st2
        | some word_timings =>
          let timing_data : TimingData := ⟨text, word_timings, alignment⟩
          let st3 := writeFile st2 (withSuffix output_path ".timing.json")
            (.timing timing_data)
          let st4 :=
            if (fsLookup st3.fs cached_audio).isNone then
              writeFile (writeFile st3 cached_audio (.audio audio_bytes))
                cached_timing (.timing timing_data)
            else st3
          (.ok { audio_path := output_path, word_timings := word_timings,
                 character_alignment := alignment, cost := _calculate_cost text,
                 character_count := text.length, from_cache := false }, st4)

/-- Model of `generate_voiceover(text, output_path, voice_id, retries)` over an
explicit environment and starting file system.  Returns the result (or the
raised error) together with the final effect state. -/
def generate_voiceover (env : Env) (fs0 : FS) (text output_path voice_id : String)
    (retries : Nat) : Except GenError VoiceoverResult × GenState :=
  let st0 : GenState := ⟨fs0, [], 0⟩
  let api_key :=
    pyOrStr (pyOrStr (pyOrStr (env.getenv "ELEVENLABS_API_KEY")
      (env.getenv "elevenlabs_key")) (env.getenv "ELEVENLABS_KEY"))
      (env.getenv "ELEVEN_API_KEY")
  if pyTruthy api_key then
    let cache_key := _get_cache_key text voice_id
    let cache_dir := pathParent output_path
    let cached_audio := cache_dir ++ "/" ++ cache_key ++ ".mp3"
    let cached_timing := cache_dir ++ "/" ++ cache_key ++ ".timing.json"
    if (fsLookup fs0 cached_audio).isSome ∧ (fsLookup fs0 cached_timing).isSome then
      match fsLookup fs0 cached_timing with
      | some (.timing timing_data) =>
        (.ok { audio_path := cached_audio,
               word_timings := timing_data.word_timings,
               character_alignment := timing_data.character_alignment,
               cost := _calculate_cost text, character_count := text.length,
               from_cache := true }, st0)
      | _ =>
        -- `json.loads` failed on the cached timing file: log and regenerate
        attemptLoop env text output_path cached_audio cached_timing retries
          retries 0 none st0
    else
      attemptLoop env text output_path cached_audio cached_timing retries
        retries 0 none st0
  else
    (.error .configError, st0)

/-- Decidable equality of run results, for evaluating concrete runs. -/
instance {e a : Type} [DecidableEq e] [DecidableEq a] : DecidableEq (Except e a)
  | .error x, .error y => decidable_of_iff (x = y) (by simp)
  | .error _, .ok _ => isFalse (by simp)
  | .ok _, .error _ => isFalse (by simp)
  | .ok x, .ok y => decidable_of_iff (x = y) (by simp)

/-- The error that one attempt of the retry loop raises before reaching the
timing-extraction stage, if any: a transport error, a missing
`audio_base64` key, or an undecodable base64 payload. -/
def stepErr : NetOutcome → Option PyErr
  | .transportError m => some (.transport m)
  | .httpOk body =>
    match body.audio_base64 with
    | .missing => some .keyError
    | .invalid _ => some .b64Error
    | .decodable _ => none

/-- Every word appended by `extractLoop` passes the
`current_word['text'].strip()` guard: if every accumulated word has
non-blank text, so does every word of a successful result. -/
theorem extractLoop_text_nonblank (characters : List Char)
    (start_times end_times : List ℚ) :
    ∀ (rest : List Char) (i : Nat) (cw : WordTiming) (words ws : List WordTiming),
      (∀ w ∈ words, pyStrip w.text ≠ "") →
      extractLoop characters start_times end_times rest i cw words = some ws →
      ∀ w ∈ ws, pyStrip w.text ≠ "" := by
  intro rest
  induction rest with
  | nil =>
    intro i cw words ws hwords hrun w hw
    simp only [extractLoop] at hrun
    split at hrun
    · rename_i hcw
      obtain rfl : words ++ [{ cw with end_ := end_times.getLastD 0 }] = ws :=
        Option.some.inj hrun
      rcases List.mem_append.1 hw with h | h
      · exact hwords w h
      · simp only [List.mem_singleton] at h
        subst h
        exact hcw
    · obtain rfl : words = ws := Option.some.inj hrun
      exact hwords w hw
  | cons char rest ih =>
    intro i cw words ws hwords hrun w hw
    simp only [extractLoop] at hrun
    split at hrun
    · -- break character: possibly close the current word, then recurse
      split at hrun
      · exact absurd hrun (by simp)
      · rename_i cw1 words1 heq
        have hwords1 : ∀ w ∈ words1, pyStrip w.text ≠ "" := by
          split at heq
          · rename_i hcw
            split at heq
            · cases heq
            · simp only [Option.some.injEq, Prod.mk.injEq] at heq
              obtain ⟨rfl, rfl⟩ := heq
              intro w hw
              rcases List.mem_append.1 hw with h | h
              · exact hwords w h
              · simp only [List.mem_singleton] at h
                subst h
                exact hcw
          · simp only [Option.some.injEq, Prod.mk.injEq] at heq
            obtain ⟨rfl, rfl⟩ := heq
            exact hwords
        exact ih _ _ _ _ hwords1 hrun w hw
    · exact ih _ _ _ _ hwords hrun w hw

/-- When the three timing lists have the same length, every unguarded list
access of `extractLoop` is in range, so the loop never fails. -/
theorem extractLoop_isSome (characters : List Char)
    (start_times end_times : List ℚ)
    (hst : start_times.length = characters.length)
    (het : end_times.length = characters.length) :
    ∀ (rest : List Char) (i : Nat) (cw : WordTiming) (words : List WordTiming),
      i + rest.length = characters.length →
      (extractLoop characters start_times end_times rest i cw words).isSome := by
  intro rest
  induction rest with
  | nil =>
    intro i cw words _
    simp only [extractLoop]
    split <;> simp
  | cons char rest ih =>
    intro i cw words hi
    have hlen : i < characters.length := by simp at hi; omega
    simp only [extractLoop]
    split
    · -- break character
      split
      · -- the close step cannot fail: its one list access is in range
        rename_i heq
        exfalso
        split at heq
        · split at heq
          · rename_i hacc
            split at hacc
            · rw [List.getElem?_eq_getElem
                (by omega : i - 1 < end_times.length)] at hacc
              cases hacc
            · rw [List.getElem?_eq_getElem
                (by omega : i < start_times.length)] at hacc
              cases hacc
          · cases heq
        · cases heq
      · exact ih (i + 1) _ _ (by simp at hi ⊢; omega)
    · exact ih (i + 1) _ _ (by simp at hi ⊢; omega)

/-- C1 counterexample: on characters `"hi there"`, start times `[0..7]` and
end times `[1..8]`, the reconstruction returns exactly the words `"hi"` and
`"there"`, but the start time of `"there"` is `3` (the start time of the
character at index 3), not `4` as the claim states. -/
theorem C1_counterexample :
    ((_extract_word_timings ['h', 'i', ' ', 't', 'h', 'e', 'r', 'e']
        [0, 1, 2, 3, 4, 5, 6, 7] [1, 2, 3, 4, 5, 6, 7, 8]).getD []).map
      (fun w => (w.text, w.start)) = [("hi", 0), ("there", 3)] ∧ (3 : ℚ) ≠ 4 := by
  constructor
  · decide
  · decide

/-- C1 (amended): for characters `"hi there"`, start times `[0..7]`, end
times `[1..8]`, `_extract_word_timings` returns exactly two word timings:
`"hi"` with start 0, end 2, character span 0–1, and `"there"` with start 3,
end 8, character span 3–7. -/
theorem C1_extract_hi_there :
    _extract_word_timings ['h', 'i', ' ', 't', 'h', 'e', 'r', 'e']
      [0, 1, 2, 3, 4, 5, 6, 7] [1, 2, 3, 4, 5, 6, 7, 8] =
      some [⟨"hi", 0, 2, 0, 1⟩, ⟨"there", 3, 8, 3, 7⟩] := by decide

/-- C4: every word timing returned by `_extract_word_timings` has text that
is neither empty nor all-whitespace (appending a word is guarded by
`current_word['text'].strip()`). -/
theorem C4_no_blank_word (characters : List Char)
    (start_times end_times : List ℚ) (ws : List WordTiming)
    (h : _extract_word_timings characters start_times end_times = some ws) :
    ∀ w ∈ ws, w.text ≠ "" ∧ pyStrip w.text ≠ "" := by
  intro w hw
  have hblank : pyStrip w.text ≠ "" := by
    unfold _extract_word_timings at h
    split at h
    · obtain rfl : ([] : List WordTiming) = ws := Option.some.inj h
      cases hw
    · exact extractLoop_text_nonblank characters start_times end_times
        characters 0 _ [] ws (by intro w hw; cases hw) h w hw
  refine ⟨?_, hblank⟩
  intro hempty
  rw [hempty] at hblank
  exact hblank rfl

/-- C4 witness at a concrete input: the word `"a"` from
`_extract_word_timings ['a', ' ', 'b'] [0,1,2] [1,2,3]`. -/
theorem C4_no_blank_word_witness :
    (⟨"a", 0, 1, 0, 0⟩ : WordTiming).text ≠ "" ∧
      pyStrip (⟨"a", 0, 1, 0, 0⟩ : WordTiming).text ≠ "" :=
  C4_no_blank_word ['a', ' ', 'b'] [0, 1, 2] [1, 2, 3]
    [⟨"a", 0, 1, 0, 0⟩, ⟨"b", 2, 3, 2, 2⟩] (by decide)
    ⟨"a", 0, 1, 0, 0⟩ (by decide)

/-- C7: if any of the three input lists is empty, `_extract_word_timings`
returns the empty sequence. -/
theorem C7_empty_inputs (characters : List Char)
    (start_times end_times : List ℚ)
    (h : characters = [] ∨ start_times = [] ∨ end_times = []) :
    _extract_word_timings characters start_times end_times = some [] := by
  unfold _extract_word_timings
  rw [if_pos h]

/-- C7 witness at a concrete input: empty start-time list, nonempty others. -/
theorem C7_empty_inputs_witness :
    (['a'] = ([] : List Char) ∨ ([] : List ℚ) = [] ∨ [(1 : ℚ)] = []) ∧
      _extract_word_timings ['a'] [] [(1 : ℚ)] = some [] :=
  ⟨Or.inr (Or.inl rfl), C7_empty_inputs ['a'] [] [(1 : ℚ)] (Or.inr (Or.inl rfl))⟩

/-- C9: when the three input lists have equal length, every list access of
`_extract_word_timings` is in range: the function never hits the
out-of-range (`IndexError`) branch, i.e. it always returns `some`. -/
theorem C9_no_index_error (characters : List Char)
    (start_times end_times : List ℚ)
    (hst : start_times.length = characters.length)
    (het : end_times.length = characters.length) :
    (_extract_word_timings characters start_times end_times).isSome := by
  unfold _extract_word_timings
  split
  · simp
  · exact extractLoop_isSome characters start_times end_times hst het
      characters 0 _ [] (by simp)

/-- C9 witness at a concrete equal-length input. -/
theorem C9_no_index_error_witness :
    ([(0 : ℚ)].length = ['a'].length) ∧ ([(1 : ℚ)].length = ['a'].length) ∧
      (_extract_word_timings ['a'] [0] [1]).isSome :=
  ⟨rfl, rfl, C9_no_index_error ['a'] [0] [1] rfl rfl⟩

/-- If every attempt raises before reaching the timing-extraction stage,
the retry loop performs all remaining attempts, writes nothing, and raises
the final error with the full retry count and the error of the last
attempt. -/
theorem attemptLoop_always_err (env : Env)
    (text output_path cached_audio cached_timing : String) (retries : Nat)
    (errf : Nat → PyErr) (herr : ∀ k, stepErr (env.net k) = some (errf k)) :
    ∀ (remaining attempt : Nat) (le : Option PyErr) (st : GenState),
      0 < remaining →
      attemptLoop env text output_path cached_audio cached_timing retries
          remaining attempt le st =
        (.error (.failedAfter retries (some (errf (attempt + remaining - 1)))),
         { st with attempts := st.attempts + remaining }) := by
  intro remaining
  induction remaining with
  | zero => intro _ _ _ h; omega
  | succ n ih =>
    intro attempt le st _
    have hk := herr attempt
    rcases hnet : env.net attempt with m | body
    · rw [hnet] at hk
      simp only [stepErr, Option.some.injEq] at hk
      simp only [attemptLoop, hnet]
      cases n with
      | zero =>
        simp only [attemptLoop]
        rw [hk]
        norm_num
      | succ m2 =>
        rw [ih (attempt + 1) _ _ (by omega)]
        have h1 : attempt + 1 + (m2 + 1) - 1 = attempt + (m2 + 1 + 1) - 1 := by omega
        have h2 : st.attempts + 1 + (m2 + 1) = st.attempts + (m2 + 1 + 1) := by omega
        rw [h1, h2]
    · rw [hnet] at hk
      rcases hb : body.audio_base64 with _ | raw | bytes
      · simp only [stepErr, hb, Option.some.injEq] at hk
        simp only [attemptLoop, hnet, hb]
        cases n with
        | zero =>
          simp only [attemptLoop]
          rw [hk]
          norm_num
        | succ m2 =>
          rw [ih (attempt + 1) _ _ (by omega)]
          have h1 : attempt + 1 + (m2 + 1) - 1 = attempt + (m2 + 1 + 1) - 1 := by omega
          have h2 : st.attempts + 1 + (m2 + 1) = st.attempts + (m2 + 1 + 1) := by omega
          rw [h1, h2]
      · simp only [stepErr, hb, Option.some.injEq] at hk
        simp only [attemptLoop, hnet, hb]
        cases n with
        | zero =>
          simp only [attemptLoop]
          rw [hk]
          norm_num
        | succ m2 =>
          rw [ih (attempt + 1) _ _ (by omega)]
          have h1 : attempt + 1 + (m2 + 1) - 1 = attempt + (m2 + 1 + 1) - 1 := by omega
          have h2 : st.attempts + 1 + (m2 + 1) = st.attempts + (m2 + 1 + 1) := by omega
          rw [h1, h2]
      · simp only [stepErr, hb] at hk
        cases hk

/-- Every successful result of the retry loop carries the recomputed cost,
the character count of the input text, and `from_cache = false`. -/
theorem attemptLoop_ok_fields (env : Env)
    (text output_path cached_audio cached_timing : String) (retries : Nat) :
    ∀ (remaining attempt : Nat) (le : Option PyErr) (st : GenState)
      (r : VoiceoverResult) (st' : GenState),
      attemptLoop env text output_path cached_audio cached_timing retries
          remaining attempt le st = (.ok r, st') →
      r.cost = _calculate_cost text ∧ r.character_count = text.length ∧
        r.from_cache = false := by
  intro remaining
  induction remaining with
  | zero =>
    intro attempt le st r st' h
    simp only [attemptLoop, Prod.mk.injEq] at h
    exact absurd h.1 (by simp)
  | succ n ih =>
    intro attempt le st r st' h
    simp only [attemptLoop] at h
    rcases hnet : env.net attempt with m | body
    · simp only [hnet] at h
      exact ih _ _ _ _ _ h
    · rcases hb : body.audio_base64 with _ | raw | bytes
      · simp only [hnet, hb] at h
        exact ih _ _ _ _ _ h
      · simp only [hnet, hb] at h
        exact ih _ _ _ _ _ h
      · rcases hext : _extract_word_timings (body.alignment.getD ⟨[], [], []⟩).characters
            (body.alignment.getD ⟨[], [], []⟩).character_start_times_seconds
            (body.alignment.getD ⟨[], [], []⟩).character_end_times_seconds with _ | wts
        · simp only [hnet, hb, hext] at h
          exact ih _ _ _ _ _ h
        · simp only [hnet, hb, hext] at h
          simp only [Prod.mk.injEq, Except.ok.injEq] at h
          obtain ⟨rfl, -⟩ := h
          exact ⟨rfl, rfl, rfl⟩

/-- Every successful run of `generate_voiceover` carries the recomputed
cost and the character count of the input text. -/
theorem generate_ok_fields (env : Env) (fs0 : FS)
    (text output_path voice_id : String) (retries : Nat)
    (r : VoiceoverResult) (st : GenState)
    (h : generate_voiceover env fs0 text output_path voice_id retries = (.ok r, st)) :
    r.cost = _calculate_cost text ∧ r.character_count = text.length := by
  simp only [generate_voiceover] at h
  split at h
  · split at h
    · split at h
      · simp only [Prod.mk.injEq, Except.ok.injEq] at h
        obtain ⟨rfl, -⟩ := h
        exact ⟨rfl, rfl⟩
      · obtain ⟨h1, h2, -⟩ := attemptLoop_ok_fields _ _ _ _ _ _ _ _ _ _ _ _ h
        exact ⟨h1, h2⟩
    · obtain ⟨h1, h2, -⟩ := attemptLoop_ok_fields _ _ _ _ _ _ _ _ _ _ _ _ h
      exact ⟨h1, h2⟩
  · simp only [Prod.mk.injEq] at h
    exact absurd h.1 (by simp)

/-- C2 counterexample: an environment whose first attempt returns a
well-formed HTTP success with the `audio_base64` field missing, and whose
second attempt succeeds.  `generate_voiceover` does NOT fail on the first
malformed success: it retries, performs a second attempt, and returns
successfully. -/
theorem C2_counterexample :
    ((generate_voiceover
        ⟨fun name => if name = "ELEVENLABS_API_KEY" then some "k" else none,
         fun attempt => if attempt = 0 then .httpOk ⟨.missing, none⟩
           else .httpOk ⟨.decodable [0], none⟩⟩
        [] "t" "out/a.mp3" "v" 3).1.isOk = true) ∧
    ((generate_voiceover
        ⟨fun name => if name = "ELEVENLABS_API_KEY" then some "k" else none,
         fun attempt => if attempt = 0 then .httpOk ⟨.missing, none⟩
           else .httpOk ⟨.decodable [0], none⟩⟩
        [] "t" "out/a.mp3" "v" 3).2.attempts = 2) := by
  constructor
  · decide
  · decide

/-- C2 (amended): a malformed successful response (missing `audio_base64`)
is caught by the broad `except` of the retry loop and retried exactly like
a network-level failure; when every attempt is malformed this way, the run
performs all `retries` attempts and raises the final wrapped error whose
last cause is the decode (`KeyError`) failure. -/
theorem C2_malformed_success_retried (env : Env) (fs0 : FS)
    (text output_path voice_id : String) (retries : Nat)
    (als : Nat → Option Alignment)
    (hkey : pyTruthy (pyOrStr (pyOrStr (pyOrStr (env.getenv "ELEVENLABS_API_KEY")
      (env.getenv "elevenlabs_key")) (env.getenv "ELEVENLABS_KEY"))
      (env.getenv "ELEVEN_API_KEY")) = true)
    (hmiss : fsLookup fs0 (pathParent output_path ++ "/" ++
      _get_cache_key text voice_id ++ ".mp3") = none)
    (hnet : ∀ k, env.net k = .httpOk ⟨.missing, als k⟩)
    (hpos : 0 < retries) :
    generate_voiceover env fs0 text output_path voice_id retries =
      (.error (.failedAfter retries (some .keyError)), ⟨fs0, [], retries⟩) := by
  have herr : ∀ k, stepErr (env.net k) = some ((fun _ => PyErr.keyError) k) := by
    intro k
    rw [hnet k]
    rfl
  simp only [generate_voiceover, hkey, hmiss, if_true, Option.isSome_none,
    Bool.false_eq_true, false_and, if_false]
  rw [attemptLoop_always_err env text output_path _ _ retries _ herr retries 0
    none ⟨fs0, [], 0⟩ hpos]
  simp

/-- C3: with `retries = 3` on a cache miss and a transport error on every
attempt, `generate_voiceover` performs exactly 3 attempts, writes no file,
and raises the final error carrying the attempt count 3 and the transport
error of the last (third) attempt. -/
theorem C3_retry_exhaustion (env : Env) (fs0 : FS)
    (text output_path voice_id : String) (msgs : Nat → String)
    (hkey : pyTruthy (pyOrStr (pyOrStr (pyOrStr (env.getenv "ELEVENLABS_API_KEY")
      (env.getenv "elevenlabs_key")) (env.getenv "ELEVENLABS_KEY"))
      (env.getenv "ELEVEN_API_KEY")) = true)
    (hmiss : fsLookup fs0 (pathParent output_path ++ "/" ++
      _get_cache_key text voice_id ++ ".mp3") = none)
    (hnet : ∀ k, env.net k = .transportError (msgs k)) :
    generate_voiceover env fs0 text output_path voice_id 3 =
      (.error (.failedAfter 3 (some (.transport (msgs 2)))), ⟨fs0, [], 3⟩) := by
  have herr : ∀ k, stepErr (env.net k) = some ((fun j => PyErr.transport (msgs j)) k) := by
    intro k
    rw [hnet k]
    rfl
  simp only [generate_voiceover, hkey, hmiss, if_true, Option.isSome_none,
    Bool.false_eq_true, false_and, if_false]
  rw [attemptLoop_always_err env text output_path _ _ 3 _ herr 3 0
    none ⟨fs0, [], 0⟩ (by omega)]

/-- C3 witness: a concrete always-failing transport with 3 retries. -/
theorem C3_retry_exhaustion_witness :
    generate_voiceover
      ⟨fun name => if name = "ELEVENLABS_API_KEY" then some "k" else none,
       fun _ => .transportError "boom"⟩ [] "t" "out/a.mp3" "v" 3 =
      (.error (.failedAfter 3 (some (.transport "boom"))), ⟨[], [], 3⟩) :=
  C3_retry_exhaustion
    ⟨fun name => if name = "ELEVENLABS_API_KEY" then some "k" else none,
     fun _ => .transportError "boom"⟩ [] "t" "out/a.mp3" "v" (fun _ => "boom")
    (by decide) rfl (fun _ => rfl)

/-- C2 witness (for the amended claim): with every attempt returning a
malformed success and 3 retries, the run makes 3 attempts and fails with
the wrapped `KeyError`. -/
theorem C2_malformed_success_retried_witness :
    generate_voiceover
      ⟨fun name => if name = "ELEVENLABS_API_KEY" then some "k" else none,
       fun _ => .httpOk ⟨.missing, none⟩⟩ [] "t" "out/a.mp3" "v" 3 =
      (.error (.failedAfter 3 (some .keyError)), ⟨[], [], 3⟩) :=
  C2_malformed_success_retried
    ⟨fun name => if name = "ELEVENLABS_API_KEY" then some "k" else none,
     fun _ => .httpOk ⟨.missing, none⟩⟩ [] "t" "out/a.mp3" "v" 3 (fun _ => none)
    (by decide) rfl (fun _ => rfl) (by omega)

/-- C6: the cost is `len(text) * 0.0003` USD for every text, and every
successful run on the empty text returns cost 0 and character count 0. -/
theorem C6_cost_linear :
    (∀ text : String, _calculate_cost text = text.length * (0.0003 : ℚ)) ∧
    ∀ (env : Env) (fs0 : FS) (output_path voice_id : String) (retries : Nat)
      (r : VoiceoverResult) (st : GenState),
      generate_voiceover env fs0 "" output_path voice_id retries = (.ok r, st) →
      r.cost = 0 ∧ r.character_count = 0 := by
  constructor
  · intro text
    rfl
  · intro env fs0 output_path voice_id retries r st h
    obtain ⟨hc, hn⟩ := generate_ok_fields env fs0 "" output_path voice_id retries r st h
    refine ⟨?_, ?_⟩
    · rw [hc]
      norm_num [_calculate_cost]
    · rw [hn]
      rfl

/-- C6 witness: the formula at `"abc"`, and a concrete successful run on
the empty text. -/
theorem C6_cost_linear_witness :
    (_calculate_cost "abc" = ("abc".length : ℚ) * 0.0003) ∧
    ((⟨"out/a.mp3", [], ⟨[], [], []⟩, _calculate_cost "", "".length, false⟩ :
        VoiceoverResult).cost = 0 ∧
     (⟨"out/a.mp3", [], ⟨[], [], []⟩, _calculate_cost "", "".length, false⟩ :
        VoiceoverResult).character_count = 0) :=
  ⟨C6_cost_linear.1 "abc",
   C6_cost_linear.2
     ⟨fun name => if name = "ELEVENLABS_API_KEY" then some "k" else none,
      fun _ => .httpOk ⟨.decodable [], none⟩⟩ [] "out/a.mp3" "v" 1
     ⟨"out/a.mp3", [], ⟨[], [], []⟩, _calculate_cost "", "".length, false⟩
     (generate_voiceover
       ⟨fun name => if name = "ELEVENLABS_API_KEY" then some "k" else none,
        fun _ => .httpOk ⟨.decodable [], none⟩⟩ [] "" "out/a.mp3" "v" 1).2
     (by rfl)⟩

/-- C8: when both cache files exist but the cached timing file does not
parse as timing JSON, the run is exactly the plain regeneration run (the
parse error is swallowed, the corrupt entry is treated as a miss), and a
successful first attempt yields a non-cached success. -/
theorem C8_corrupt_cache_regenerates (env : Env) (fs0 : FS)
    (text output_path voice_id : String) (n : Nat) (c : FileContent)
    (bytes : List Nat) (al : Alignment) (wts : List WordTiming)
    (hkey : pyTruthy (pyOrStr (pyOrStr (pyOrStr (env.getenv "ELEVENLABS_API_KEY")
      (env.getenv "elevenlabs_key")) (env.getenv "ELEVENLABS_KEY"))
      (env.getenv "ELEVEN_API_KEY")) = true)
    (ha : fsLookup fs0 (pathParent output_path ++ "/" ++
      _get_cache_key text voice_id ++ ".mp3") = some c)
    (ht : fsLookup fs0 (pathParent output_path ++ "/" ++
      _get_cache_key text voice_id ++ ".timing.json") = some (.corrupt "bad"))
    (hnet0 : env.net 0 = .httpOk ⟨.decodable bytes, some al⟩)
    (hext : _extract_word_timings al.characters al.character_start_times_seconds
      al.character_end_times_seconds = some wts) :
    generate_voiceover env fs0 text output_path voice_id (n + 1) =
      attemptLoop env text output_path
        (pathParent output_path ++ "/" ++ _get_cache_key text voice_id ++ ".mp3")
        (pathParent output_path ++ "/" ++ _get_cache_key text voice_id ++ ".timing.json")
        (n + 1) (n + 1) 0 none ⟨fs0, [], 0⟩ ∧
    (generate_voiceover env fs0 text output_path voice_id (n + 1)).1 =
      .ok { audio_path := output_path, word_timings := wts,
            character_alignment := al, cost := _calculate_cost text,
            character_count := text.length, from_cache := false } := by
  have hrun : generate_voiceover env fs0 text output_path voice_id (n + 1) =
      attemptLoop env text output_path
        (pathParent output_path ++ "/" ++ _get_cache_key text voice_id ++ ".mp3")
        (pathParent output_path ++ "/" ++ _get_cache_key text voice_id ++ ".timing.json")
        (n + 1) (n + 1) 0 none ⟨fs0, [], 0⟩ := by
    simp only [generate_voiceover, hkey, ha, ht, if_true, Option.isSome_some,
      and_self, if_pos]
  refine ⟨hrun, ?_⟩
  rw [hrun]
  simp only [attemptLoop, hnet0, Option.getD_some, hext]

/-- C8 witness: a concrete corrupt cache entry alongside a present cached
audio file; the run succeeds via regeneration. -/
theorem C8_corrupt_cache_regenerates_witness :
    (generate_voiceover
      ⟨fun name => if name = "ELEVENLABS_API_KEY" then some "k" else none,
       fun _ => .httpOk ⟨.decodable [7], some ⟨['h'], [0], [1]⟩⟩⟩
      [(pathParent "out/a.mp3" ++ "/" ++ _get_cache_key "t" "v" ++ ".mp3",
        .audio [9]),
       (pathParent "out/a.mp3" ++ "/" ++ _get_cache_key "t" "v" ++ ".timing.json",
        .corrupt "bad")]
      "t" "out/a.mp3" "v" 3).1 =
      .ok { audio_path := "out/a.mp3", word_timings := [⟨"h", 0, 1, 0, 0⟩],
            character_alignment := ⟨['h'], [0], [1]⟩, cost := _calculate_cost "t",
            character_count := "t".length, from_cache := false } :=
  (C8_corrupt_cache_regenerates
    ⟨fun name => if name = "ELEVENLABS_API_KEY" then some "k" else none,
     fun _ => .httpOk ⟨.decodable [7], some ⟨['h'], [0], [1]⟩⟩⟩
    [(pathParent "out/a.mp3" ++ "/" ++ _get_cache_key "t" "v" ++ ".mp3",
      .audio [9]),
     (pathParent "out/a.mp3" ++ "/" ++ _get_cache_key "t" "v" ++ ".timing.json",
      .corrupt "bad")]
    "t" "out/a.mp3" "v" 2 (.audio [9]) [7] ⟨['h'], [0], [1]⟩ [⟨"h", 0, 1, 0, 0⟩]
    (by decide) (by decide) (by decide) rfl (by decide)).2

/-- C10: on a genuine cache hit (both files exist and the timing JSON
parses), the run writes nothing, leaves the file system unchanged, and
returns the cached audio path `{parent}/{key}.mp3` — not the requested
output path — with `from_cache = true`. -/
theorem C10_cache_hit_no_write (env : Env) (fs0 : FS)
    (text output_path voice_id : String) (retries : Nat) (c : FileContent)
    (td : TimingData)
    (hkey : pyTruthy (pyOrStr (pyOrStr (pyOrStr (env.getenv "ELEVENLABS_API_KEY")
      (env.getenv "elevenlabs_key")) (env.getenv "ELEVENLABS_KEY"))
      (env.getenv "ELEVEN_API_KEY")) = true)
    (ha : fsLookup fs0 (pathParent output_path ++ "/" ++
      _get_cache_key text voice_id ++ ".mp3") = some c)
    (ht : fsLookup fs0 (pathParent output_path ++ "/" ++
      _get_cache_key text voice_id ++ ".timing.json") = some (.timing td)) :
    generate_voiceover env fs0 text output_path voice_id retries =
      (.ok { audio_path := pathParent output_path ++ "/" ++
               _get_cache_key text voice_id ++ ".mp3",
             word_timings := td.word_timings,
             character_alignment := td.character_alignment,
             cost := _calculate_cost text, character_count := text.length,
             from_cache := true }, ⟨fs0, [], 0⟩) := by
  simp only [generate_voiceover, hkey, ha, ht, if_true, Option.isSome_some,
    and_self, if_pos]

/-- C10 witness: a concrete warm cache; the result is the cached path and
no write happens. -/
theorem C10_cache_hit_no_write_witness :
    generate_voiceover
      ⟨fun name => if name = "ELEVENLABS_API_KEY" then some "k" else none,
       fun _ => .transportError "unused"⟩
      [(pathParent "out/a.mp3" ++ "/" ++ _get_cache_key "t" "v" ++ ".mp3",
        .audio [9]),
       (pathParent "out/a.mp3" ++ "/" ++ _get_cache_key "t" "v" ++ ".timing.json",
        .timing ⟨"t", [⟨"t", 0, 1, 0, 0⟩], ⟨['t'], [0], [1]⟩⟩)]
      "t" "out/a.mp3" "v" 3 =
      (.ok { audio_path := pathParent "out/a.mp3" ++ "/" ++
               _get_cache_key "t" "v" ++ ".mp3",
             word_timings := [⟨"t", 0, 1, 0, 0⟩],
             character_alignment := ⟨['t'], [0], [1]⟩,
             cost := _calculate_cost "t", character_count := "t".length,
             from_cache := true },
       ⟨[(pathParent "out/a.mp3" ++ "/" ++ _get_cache_key "t" "v" ++ ".mp3",
          .audio [9]),
         (pathParent "out/a.mp3" ++ "/" ++ _get_cache_key "t" "v" ++ ".timing.json",
          .timing ⟨"t", [⟨"t", 0, 1, 0, 0⟩], ⟨['t'], [0], [1]⟩⟩)], [], 0⟩) :=
  C10_cache_hit_no_write
    ⟨fun name => if name = "ELEVENLABS_API_KEY" then some "k" else none,
     fun _ => .transportError "unused"⟩
    [(pathParent "out/a.mp3" ++ "/" ++ _get_cache_key "t" "v" ++ ".mp3",
      .audio [9]),
     (pathParent "out/a.mp3" ++ "/" ++ _get_cache_key "t" "v" ++ ".timing.json",
      .timing ⟨"t", [⟨"t", 0, 1, 0, 0⟩], ⟨['t'], [0], [1]⟩⟩)]
    "t" "out/a.mp3" "v" 3 (.audio [9]) ⟨"t", [⟨"t", 0, 1, 0, 0⟩], ⟨['t'], [0], [1]⟩⟩
    (by decide) (by decide) (by decide)

/-- Every field of every SHA-256 hash state is a 32-bit value: the initial
state is, and every compression output ends in `% 2^32`. -/
theorem sha256State_bounded (m : List Nat) :
    (sha256State m).h0 < W32 ∧ (sha256State m).h1 < W32 ∧
    (sha256State m).h2 < W32 ∧ (sha256State m).h3 < W32 ∧
    (sha256State m).h4 < W32 ∧ (sha256State m).h5 < W32 ∧
    (sha256State m).h6 < W32 ∧ (sha256State m).h7 < W32 := by
  have hstep : ∀ (H : Sha8) (b : List Nat),
      (sha256Compress H b).h0 < W32 ∧ (sha256Compress H b).h1 < W32 ∧
      (sha256Compress H b).h2 < W32 ∧ (sha256Compress H b).h3 < W32 ∧
      (sha256Compress H b).h4 < W32 ∧ (sha256Compress H b).h5 < W32 ∧
      (sha256Compress H b).h6 < W32 ∧ (sha256Compress H b).h7 < W32 := by
    intro H b
    simp only [sha256Compress]
    refine ⟨?_, ?_, ?_, ?_, ?_, ?_, ?_, ?_⟩ <;> exact Nat.mod_lt _ (by decide)
  have hmain : ∀ (bs : List (List Nat)) (H : Sha8),
      (H.h0 < W32 ∧ H.h1 < W32 ∧ H.h2 < W32 ∧ H.h3 < W32 ∧
       H.h4 < W32 ∧ H.h5 < W32 ∧ H.h6 < W32 ∧ H.h7 < W32) →
      ((bs.foldl sha256Compress H).h0 < W32 ∧ (bs.foldl sha256Compress H).h1 < W32 ∧
       (bs.foldl sha256Compress H).h2 < W32 ∧ (bs.foldl sha256Compress H).h3 < W32 ∧
       (bs.foldl sha256Compress H).h4 < W32 ∧ (bs.foldl sha256Compress H).h5 < W32 ∧
       (bs.foldl sha256Compress H).h6 < W32 ∧ (bs.foldl sha256Compress H).h7 < W32) := by
    intro bs
    induction bs with
    | nil => intro H hH; exact hH
    | cons b bs ih => intro H _; exact ih _ (hstep H b)
  exact hmain _ _ (by decide)

/-- C5 counterexample: `_get_cache_key` is not injective in the text — by
counting, there exist two distinct texts whose digests for the same voice
collide (at most `2^256` hash states, but `2^257` distinct texts of 257
letters). -/
theorem C5_counterexample :
    ∃ t1 t2 : String, t1 ≠ t2 ∧ _get_cache_key t1 "v" = _get_cache_key t2 "v" := by
  have hcard :
      Fintype.card (Fin W32 × Fin W32 × Fin W32 × Fin W32 ×
        Fin W32 × Fin W32 × Fin W32 × Fin W32) <
      Fintype.card (Fin 257 → Bool) := by
    simp only [Fintype.card_prod, Fintype.card_fun, Fintype.card_fin,
      Fintype.card_bool, W32]
    norm_num
  obtain ⟨b1, b2, hne, heq⟩ := Fintype.exists_ne_map_eq_of_card_lt
    (fun b => sha256Fin (utf8Encode (cacheKeyPayload (bitsToString b) "v"))) hcard
  have hinj : Function.Injective bitsToString := by
    intro x y hxy
    have hd := congrArg String.data hxy
    simp only [bitsToString] at hd
    have hfn := List.ofFn_injective hd
    funext i
    have hi : (if x i = true then 'b' else 'a') = (if y i = true then 'b' else 'a') :=
      congrFun hfn i
    cases hx : x i <;> cases hy : y i <;> rw [hx, hy] at hi
    · exact absurd hi (by decide)
    · exact absurd hi (by decide)
  refine ⟨bitsToString b1, bitsToString b2, fun h => hne (hinj h), ?_⟩
  set m1 := utf8Encode (cacheKeyPayload (bitsToString b1) "v") with hm1
  set m2 := utf8Encode (cacheKeyPayload (bitsToString b2) "v") with hm2
  have hfin : sha256Fin m1 = sha256Fin m2 := heq
  simp only [sha256Fin, Prod.mk.injEq, Fin.mk.injEq] at hfin
  obtain ⟨f0, f1, f2, f3, f4, f5, f6, f7⟩ := hfin
  obtain ⟨a0, a1, a2, a3, a4, a5, a6, a7⟩ := sha256State_bounded m1
  obtain ⟨c0, c1, c2, c3, c4, c5, c6, c7⟩ := sha256State_bounded m2
  rw [Nat.mod_eq_of_lt a0, Nat.mod_eq_of_lt c0] at f0
  rw [Nat.mod_eq_of_lt a1, Nat.mod_eq_of_lt c1] at f1
  rw [Nat.mod_eq_of_lt a2, Nat.mod_eq_of_lt c2] at f2
  rw [Nat.mod_eq_of_lt a3, Nat.mod_eq_of_lt c3] at f3
  rw [Nat.mod_eq_of_lt a4, Nat.mod_eq_of_lt c4] at f4
  rw [Nat.mod_eq_of_lt a5, Nat.mod_eq_of_lt c5] at f5
  rw [Nat.mod_eq_of_lt a6, Nat.mod_eq_of_lt c6] at f6
  rw [Nat.mod_eq_of_lt a7, Nat.mod_eq_of_lt c7] at f7
  show sha256Hexdigest m1 = sha256Hexdigest m2
  simp only [sha256Hexdigest]
  rw [f0, f1, f2, f3, f4, f5, f6, f7]

/-- Decoding a hexadecimal digit undoes encoding one. -/
theorem hexVal_hexDigitChar : ∀ n < 16, hexVal? (hexDigitChar n) = some n := by decide

/-- Decoding a four-digit hexadecimal escape body undoes encoding one. -/
theorem hex4_toHex4 (n : Nat) (h : n < 65536) :
    hex4? (hexDigitChar (n / 4096 % 16)) (hexDigitChar (n / 256 % 16))
      (hexDigitChar (n / 16 % 16)) (hexDigitChar (n % 16)) = some n := by
  have e1 := hexVal_hexDigitChar (n / 4096 % 16) (by omega)
  have e2 := hexVal_hexDigitChar (n / 256 % 16) (by omega)
  have e3 := hexVal_hexDigitChar (n / 16 % 16) (by omega)
  have e4 := hexVal_hexDigitChar (n % 16) (by omega)
  simp only [hex4?, e1, e2, e3, e4, Option.some.injEq]
  omega

/-- A Unicode scalar value is below the surrogate range or above it. -/
theorem char_toNat_valid (c : Char) :
    c.toNat < 55296 ∨ (57343 < c.toNat ∧ c.toNat < 1114112) := by
  have h := c.valid
  have hh : c.toNat = c.val.toNat := rfl
  simp only [UInt32.isValidChar, Nat.isValidChar] at h
  omega

set_option maxRecDepth 8000
set_option maxHeartbeats 2000000

/-- Behaviour of `parseStep` at a closing quote. -/
theorem parseStep_quote (next : List Char → Option (List Char × List Char))
    (r : List Char) : parseStep next ('"' :: r) = some ([], r) := rfl

/-- Behaviour of `parseStep` at an unescaped ordinary character. -/
theorem parseStep_raw (next : List Char → Option (List Char × List Char))
    (c : Char) (r s rest : List Char)
    (h1 : ¬ c = '"') (h2 : ¬ c = '\\')
    (h : next r = some (s, rest)) :
    parseStep next (c :: r) = some (c :: s, rest) := by
  simp [parseStep, h1, h2, h]

/-- Behaviour of `parseStep` at a two-character named escape. -/
theorem parseStep_esc (next : List Char → Option (List Char × List Char))
    (e ch : Char) (r s rest : List Char)
    (hu : ¬ e = 'u')
    (htab : (if e = '"' then some '"'
             else if e = '\\' then some '\\'
             else if e = 'n' then some '\n'
             else if e = 'r' then some '\r'
             else if e = 't' then some '\t'
             else if e = 'b' then some (Char.ofNat 8)
             else if e = 'f' then some (Char.ofNat 12)
             else none) = some ch)
    (h : next r = some (s, rest)) :
    parseStep next ('\\' :: e :: r) = some (ch :: s, rest) := by
  simp [parseStep, hu, htab, h]

/-- Behaviour of `parseStep` at a non-surrogate `\uXXXX` escape. -/
theorem parseStep_u_single (next : List Char → Option (List Char × List Char))
    (n : Nat) (r s rest : List Char)
    (hlt : n < 65536) (hns : ¬(55296 ≤ n ∧ n ≤ 56319))
    (h : next r = some (s, rest)) :
    parseStep next ('\\' :: 'u' :: (toHex4 n ++ r)) = some (Char.ofNat n :: s, rest) := by
  simp [parseStep, toHex4, List.cons_append, List.nil_append, hex4_toHex4 n hlt, hns, h]

/-- Behaviour of `parseStep` at a surrogate-pair escape. -/
theorem parseStep_u_pair (next : List Char → Option (List Char × List Char))
    (n m : Nat) (r s rest : List Char)
    (hn : n < 65536) (hm : m < 65536)
    (hns : 55296 ≤ n ∧ n ≤ 56319) (hms : 56320 ≤ m ∧ m ≤ 57343)
    (h : next r = some (s, rest)) :
    parseStep next ('\\' :: 'u' :: (toHex4 n ++ ('\\' :: 'u' :: (toHex4 m ++ r)))) =
      some (Char.ofNat (65536 + (n - 55296) * 1024 + (m - 56320)) :: s, rest) := by
  simp [parseStep, toHex4, List.cons_append, List.nil_append,
    hex4_toHex4 n hn, hex4_toHex4 m hm, hns, hms, hns.1, hns.2, hms.1, hms.2, h]

/-- Every character escapes to at least one character. -/
theorem escapeChar_length_pos (c : Char) : 0 < (escapeChar c).length := by
  unfold escapeChar
  split_ifs <;> simp [toHex4]

/-- Escaping never shortens a string. -/
theorem escapeChars_length_ge (s : List Char) : s.length ≤ (escapeChars s).length := by
  induction s with
  | nil => simp [escapeChars]
  | cons c s ih =>
    have := escapeChar_length_pos c
    simp only [escapeChars, List.length_append, List.length_cons]
    omega

/-- With enough fuel, parsing the escaped body followed by the closing quote
recovers the original characters and the remaining input. -/
theorem parseJStringF_escapeChars (s : List Char) :
    ∀ (fuel : Nat) (rest : List Char), s.length < fuel →
      parseJStringF fuel (escapeChars s ++ '"' :: rest) = some (s, rest) := by
  induction s with
  | nil =>
    intro fuel rest hf
    cases fuel with
    | zero => omega
    | succ f =>
      simp only [escapeChars, List.nil_append, parseJStringF]
      exact parseStep_quote _ rest
  | cons c s ih =>
    intro fuel rest hf
    cases fuel with
    | zero => omega
    | succ f =>
      have hval := char_toNat_valid c
      have htail := ih f rest (by simp at hf; omega)
      simp only [parseJStringF]
      rw [escapeChars, List.append_assoc]
      simp only [escapeChar]
      split_ifs with h1 h2 h3 h4 h5 h6 h7 h8 h9 h10
      · subst h1
        simp only [List.cons_append, List.nil_append]
        exact parseStep_esc _ '"' '"' _ _ _ (by decide) rfl htail
      · subst h2
        simp only [List.cons_append, List.nil_append]
        exact parseStep_esc _ '\\' '\\' _ _ _ (by decide) rfl htail
      · subst h3
        simp only [List.cons_append, List.nil_append]
        exact parseStep_esc _ 'n' '\n' _ _ _ (by decide) rfl htail
      · subst h4
        simp only [List.cons_append, List.nil_append]
        exact parseStep_esc _ 'r' '\r' _ _ _ (by decide) rfl htail
      · subst h5
        simp only [List.cons_append, List.nil_append]
        exact parseStep_esc _ 't' '\t' _ _ _ (by decide) rfl htail
      · -- backspace, escaped as \b
        have hc : Char.ofNat 8 = c := by rw [← h6, Char.ofNat_toNat]
        simp only [List.cons_append, List.nil_append]
        rw [← hc]
        exact parseStep_esc _ 'b' (Char.ofNat 8) _ _ _ (by decide) rfl htail
      · -- form feed, escaped as \f
        have hc : Char.ofNat 12 = c := by rw [← h7, Char.ofNat_toNat]
        simp only [List.cons_append, List.nil_append]
        rw [← hc]
        exact parseStep_esc _ 'f' (Char.ofNat 12) _ _ _ (by decide) rfl htail
      · -- remaining control characters, escaped as \uXXXX
        simp only [List.cons_append, List.nil_append]
        have hp := parseStep_u_single (parseJStringF f) c.toNat
          (escapeChars s ++ '"' :: rest) s rest (by omega) (by omega) htail
        rw [Char.ofNat_toNat] at hp
        exact hp
      · -- printable ASCII, kept verbatim
        simp only [List.cons_append, List.nil_append]
        exact parseStep_raw _ c _ _ _ h1 h2 htail
      · -- other characters of the basic multilingual plane, escaped as \uXXXX
        simp only [List.cons_append, List.nil_append]
        have hp := parseStep_u_single (parseJStringF f) c.toNat
          (escapeChars s ++ '"' :: rest) s rest (by omega)
          (by rcases hval with h | h <;> omega) htail
        rw [Char.ofNat_toNat] at hp
        exact hp
      · -- astral characters, escaped as a surrogate pair
        have hc1114 : c.toNat < 1114112 := by rcases hval with h | h <;> omega
        simp only [List.cons_append, List.nil_append, List.append_assoc]
        have hp := parseStep_u_pair (parseJStringF f) (55296 + (c.toNat - 65536) / 1024)
          (56320 + (c.toNat - 65536) % 1024) (escapeChars s ++ '"' :: rest) s rest
          (by omega) (by omega) (by omega) (by omega) htail
        have harith : 65536 + (55296 + (c.toNat - 65536) / 1024 - 55296) * 1024 +
            (56320 + (c.toNat - 65536) % 1024 - 56320) = c.toNat := by omega
        rw [harith, Char.ofNat_toNat] at hp
        exact hp

/-- Parsing is a left inverse of escaping: `parseJString` undoes `escapeChars`. -/
theorem parseJString_escapeChars (s : List Char) (rest : List Char) :
    parseJString (escapeChars s ++ '"' :: rest) = some (s, rest) := by
  have hlen := escapeChars_length_ge s
  apply parseJStringF_escapeChars
  simp only [List.length_append, List.length_cons]
  omega

/-- The canonical serialization `cacheKeyPayload` is injective: distinct
(text, voice) pairs always feed distinct strings to the hash. -/
theorem cacheKeyPayload_injective (t v t' v' : String)
    (h : cacheKeyPayload t v = cacheKeyPayload t' v') : t = t' ∧ v = v' := by
  simp only [cacheKeyPayload, List.append_assoc] at h
  have h1 := List.append_cancel_left h
  simp only [List.cons_append, List.nil_append] at h1
  have p1 := parseJString_escapeChars t.data
    (([',', ' ', '\"', 'v', 'o', 'i', 'c', 'e', '_', 'i', 'd', '\"', ':', ' ', '\"'] :
        List Char) ++ (escapeChars v.data ++ ['\"', '\x7d']))
  have p2 := parseJString_escapeChars t'.data
    (([',', ' ', '\"', 'v', 'o', 'i', 'c', 'e', '_', 'i', 'd', '\"', ':', ' ', '\"'] :
        List Char) ++ (escapeChars v'.data ++ ['\"', '\x7d']))
  simp only [List.cons_append, List.nil_append] at p1 p2
  rw [h1] at p1
  have hpq := p1.symm.trans p2
  simp only [Option.some.injEq, Prod.mk.injEq, List.cons.injEq, true_and] at hpq
  obtain ⟨hdata, hrest⟩ := hpq
  have ht : t = t' := by
    cases t
    cases t'
    simp only at hdata
    rw [hdata]
  have q1 := parseJString_escapeChars v.data ['\x7d']
  have q2 := parseJString_escapeChars v'.data ['\x7d']
  rw [hrest] at q1
  have hq := q1.symm.trans q2
  simp only [Option.some.injEq, Prod.mk.injEq] at hq
  have hv : v = v' := by
    cases v
    cases v'
    simp only at hq
    rw [hq.1]
  exact ⟨ht, hv⟩

/-- C5 (amended): the cache key is a deterministic pure function of
(text, voice_id) — identical inputs give identical digests on every call —
and any change to text or voice_id changes the canonically serialized hash
input (the serialization is injective), so distinct inputs can collide only
through a SHA-256 collision of the 64-hex-character digest. -/
theorem C5_cache_key_deterministic :
    (∀ text voice_id : String,
      _get_cache_key text voice_id = _get_cache_key text voice_id) ∧
    (∀ t v t' v' : String,
      cacheKeyPayload t v = cacheKeyPayload t' v' → t = t' ∧ v = v') :=
  ⟨fun _ _ => rfl, cacheKeyPayload_injective⟩

/-- C5 witness at concrete inputs. -/
theorem C5_cache_key_deterministic_witness :
    (_get_cache_key "a" "b" = _get_cache_key "a" "b") ∧
    (("a" : String) = "a" ∧ ("b" : String) = "b") :=
  ⟨C5_cache_key_deterministic.1 "a" "b",
   C5_cache_key_deterministic.2 "a" "b" "a" "b" rfl⟩

end VideoGraph
